import Mathlib

/-!
Verification development for the client-side chat synchronization engine of the
Messagingapp repository (`src/lib/chat.ts`, class `ChatManager`, with the parallel
variant in `src/unnamed/part_001`).

Modelling conventions:
* Timestamps are `Nat` epoch milliseconds.  The source stores ISO-8601 strings and
  compares them through `new Date(...).getTime()`; that mapping is order-preserving,
  so `Nat` comparison is faithful for every ordering property below.
* The three in-memory `Map`s of `ChatManager` (`chats`, `messages`, `pendingMessages`)
  are modelled as association lists keyed the way the source keys them, with
  `Map.get`/`Map.set`/`Map.delete` modelled by `find?` / replace-or-append / `filter`,
  which matches JavaScript `Map` semantics (insertion order preserved, `set` on an
  existing key replaces in place).
* Remote-store and clock interaction is passed in explicitly through environment
  records (`SendEnv`, `CreateEnv`, ...): each field corresponds to one awaited
  remote call or one clock/id generation in the source.
* `AsyncStorage` persistence (`saveChatsToStorage`, `savePendingMessages`,
  `loadChatsFromStorage`) wraps every failure in its own `try/catch` and only logs,
  so it has no effect on control flow or on the in-memory state modelled here.
* `markActive` (src/unnamed/part_000) likewise catches all its own errors.
* src/lib/chat.ts is in a botched-merge state: `getUserChats` declares
  `const userChats` twice in one block (chat.ts:712 and 738, a syntax error that
  prevents the module from parsing), `createChat` contains a block duplicated from
  `sendMessage` whose names (`message`, `messageId`, ...) are not in scope
  (chat.ts:363-427) plus an unbound `user` in the dedup loop (chat.ts:274), and
  both chat.ts:430 and chat.ts:611 read
  `await markActive(currentUser.id);s.saveChatsToStorage();` with `s` unbound.
  The parallel variant src/unnamed/part_001 is the clean, runnable form of the
  same class, so part_001 is the primary model for every operation below; the
  unbound references of chat.ts are modelled faithfully as raising reference
  errors wherever a claim's evidence lives only in chat.ts (the `createChat`
  dedup block, and the remote persist block of `sendMessage`, embedded
  separately as `sendMessageChatTs` — part_001's `sendMessage` has no remote
  persist step at all).
-/

namespace Messagingapp

/-- Message payload kinds, from `'text' | 'file' | 'image' | 'audio' | 'video'`. -/
inductive MsgType
  | text
  | file
  | image
  | audio
  | video
deriving DecidableEq, Repr

/-- Per-recipient delivery states, from `'sent' | 'delivered' | 'seen'`. -/
inductive MsgStatus
  | sent
  | delivered
  | seen
deriving DecidableEq, Repr

/-- Interface `MessageStatus` of chat.ts. -/
structure MessageStatus where
  id : String
  message_id : String
  user_id : String
  status : MsgStatus
  updated_at : Nat
deriving DecidableEq, Repr

/-- Interface `Message` of chat.ts.  The optional `status?` array is modelled as a
list with `[]` for absent, matching the source's `m.status = m.status || []`. -/
structure Message where
  id : String
  chat_id : String
  sender_id : String
  message_type : MsgType
  file_name : Option String := none
  file_size : Option Nat := none
  reply_to : Option String := none
  created_at : Nat
  expires_at : Nat
  content : Option String := none
  status : List MessageStatus := []
deriving DecidableEq, Repr

/-- Interface `PendingMessage` of chat.ts. -/
structure PendingMessage where
  id : String
  chat_id : String
  content : String
  message_type : MsgType
  file_data : Option String := none
  file_name : Option String := none
  retry_count : Nat
  created_at : Nat
deriving DecidableEq, Repr

/-- Interface `Chat` of chat.ts.  `participants` is the list of identity ids, the
shape the code actually stores (`allParticipants = [currentUser.id, ...profileIds]`).
The never-read `group_key_version` field is omitted. -/
structure Chat where
  id : String
  name : Option String := none
  is_group : Bool
  created_by : String
  participants : List String
  created_at : Nat
  updated_at : Nat
  last_message : Option String := none
  last_message_at : Option Nat := none
deriving DecidableEq, Repr

/-- The in-memory state of `ChatManager`: `chats`, `messages`, `pendingMessages`. -/
structure ChatState where
  chats : List Chat
  messages : List (String × List Message)
  pendingMessages : List PendingMessage
deriving DecidableEq, Repr

/-- `this.chats.get(chatId)`. -/
def chatLookup (cs : List Chat) (i : String) : Option Chat :=
  cs.find? (fun c => c.id == i)

/-- `this.chats.set(chat.id, chat)`: replace in place, else append. -/
def chatSet (cs : List Chat) (c : Chat) : List Chat :=
  if (cs.find? (fun x => x.id == c.id)).isSome then
    cs.map (fun x => if x.id == c.id then c else x)
  else cs ++ [c]

/-- `this.messages.get(chatId)`. -/
def msgsLookup (ms : List (String × List Message)) (i : String) : Option (List Message) :=
  (ms.find? (fun p => p.1 == i)).map (fun p => p.2)

/-- `this.messages.set(chatId, list)`. -/
def msgsSet (ms : List (String × List Message)) (i : String) (v : List Message) :
    List (String × List Message) :=
  if (ms.find? (fun p => p.1 == i)).isSome then
    ms.map (fun p => if p.1 == i then (i, v) else p)
  else ms ++ [(i, v)]

/-- `this.pendingMessages.get(id)`. -/
def pendLookup (ps : List PendingMessage) (i : String) : Option PendingMessage :=
  ps.find? (fun p => p.id == i)

/-- `this.pendingMessages.set(p.id, p)`. -/
def pendSet (ps : List PendingMessage) (p : PendingMessage) : List PendingMessage :=
  if (ps.find? (fun x => x.id == p.id)).isSome then
    ps.map (fun x => if x.id == p.id then p else x)
  else ps ++ [p]

/-- `this.pendingMessages.delete(id)`. -/
def pendDelete (ps : List PendingMessage) (i : String) : List PendingMessage :=
  ps.filter (fun p => p.id != i)

/-- Seven days in milliseconds, `7 * 24 * 60 * 60 * 1000` (chat.ts:526). -/
def sevenDaysMs : Nat := 7 * 24 * 60 * 60 * 1000

/-! ## sendMessage (chat.ts:460-635) -/

/-- Outcome of the awaited `supabase.from('messages').insert(...)` in the chat.ts
variant of `sendMessage` (`sendMessageChatTs`): it resolves with no error,
resolves with a non-null `insertError`, or rejects (the `catch (dbErr)` branch).
The part_001 variant performs no remote insert and never consults this. -/
inductive PersistOutcome
  | ok
  | rejected
  | thrown
deriving DecidableEq, Repr

/-- Environment of one `sendMessage` call: the resolved identity
(`authManager.getCurrentUserSafe()`), the generated message id (chat.ts:478), the
clock, whether the recipient-key fetch / `encryptMessage` region raises, and the
remote persist outcome. -/
structure SendEnv where
  currentUser : Option String
  messageId : String
  now : Nat
  prepThrows : Bool
  persist : PersistOutcome
deriving DecidableEq, Repr

/-- Errors `sendMessage` can propagate.  The source throws `Error` values whose
messages are, in order: `'User not authenticated. Please log in to send messages.'`
(unwrapped, thrown before the `try`), and — wrapped by the outer catch into
`'Failed to send message: ...'` — `'Chat not found'`,
`'User is not a participant in this chat'`, and any exception raised while fetching
recipient keys or encrypting.  `refErrorS` is specific to the chat.ts variant: the
reference error raised by the unbound `s` in `s.saveChatsToStorage()` at
chat.ts:611, wrapped by the outer catch as
`'Failed to send message: s is not defined'`. -/
inductive SendError
  | authError
  | chatNotFound
  | notParticipant
  | prepFailed
  | refErrorS
deriving DecidableEq, Repr

/-- Remote-store calls a `ChatManager` operation can issue, used to state that a
path performs no remote fetch. -/
inductive RemoteOp
  | fetchProfiles
  | insertMessage
  | upsertStatus
  | touchActivity
  | fetchChat
deriving DecidableEq, Repr

/-- Result of a `sendMessage` call: the returned/thrown value, the updated
in-memory state, and the remote calls attempted along the way. -/
structure SendOutcome where
  result : Except SendError Message
  state : ChatState
  remoteOps : List RemoteOp
deriving Repr

/-- The `PendingMessage` object every enqueue site of `sendMessage` builds
(part_001:365-374; in the chat.ts variant also chat.ts:566-575, 596-605 and the
outer catch 619-628): fresh message id and `retry_count: 0`. -/
def sendPending (env : SendEnv) (chatId content : String) (mt : MsgType)
    (fd fn : Option String) : PendingMessage :=
  { id := env.messageId, chat_id := chatId, content := content, message_type := mt,
    file_data := fd, file_name := fn, retry_count := 0, created_at := env.now }

/-- The optimistic `Message` object `sendMessage` constructs
(part_001:339-349 = chat.ts:517-528): plaintext retained locally, `file_size`
from the raw file data, `expires_at` seven days past `created_at`. -/
def optimisticMessage (env : SendEnv) (uid chatId content : String) (mt : MsgType)
    (fd fn : Option String) : Message :=
  { id := env.messageId, chat_id := chatId, sender_id := uid, message_type := mt,
    file_name := fn, file_size := fd.map String.length, reply_to := none,
    created_at := env.now, expires_at := env.now + sevenDaysMs,
    content := some content, status := [] }

/-- `ChatManager.sendMessage`, modelled from the runnable variant
(src/unnamed/part_001:292-381; the chat.ts module does not parse, see the
header).  Control flow, in source order: auth check (throws before the `try`,
so no pending entry); message id generation; inside the `try`: cached-chat
lookup, participant check, recipient-key fetch plus encryption (modelled by
`prepThrows`), optimistic local apply (append to the chat's message list,
update `last_message`/`updated_at`), cache persist and activity ping (both
swallow their errors), then `return message`.  This variant performs no remote
message insert, so `env.persist` is never consulted.  Any exception raised
inside the `try` reaches the catch (part_001:364-380), which enqueues exactly
one `PendingMessage` with retry-count 0 under the fresh id and rethrows. -/
def sendMessage (st : ChatState) (env : SendEnv) (chatId content : String)
    (mt : MsgType := .text) (fd : Option String := none) (fn : Option String := none) :
    SendOutcome :=
  match env.currentUser with
  | none => { result := .error .authError, state := st, remoteOps := [] }
  | some uid =>
    let pending := sendPending env chatId content mt fd fn
    match chatLookup st.chats chatId with
    | none =>
      { result := .error .chatNotFound,
        state := { st with pendingMessages := pendSet st.pendingMessages pending },
        remoteOps := [] }
    | some chat =>
      if !(chat.participants.contains uid) then
        { result := .error .notParticipant,
          state := { st with pendingMessages := pendSet st.pendingMessages pending },
          remoteOps := [] }
      else if env.prepThrows then
        { result := .error .prepFailed,
          state := { st with pendingMessages := pendSet st.pendingMessages pending },
          remoteOps := [.fetchProfiles] }
      else
        let message := optimisticMessage env uid chatId content mt fd fn
        let chatMessages := (msgsLookup st.messages chatId).getD []
        let chat1 : Chat :=
          { chat with last_message := some (content.take 100),
                      last_message_at := some env.now, updated_at := env.now }
        let st1 : ChatState :=
          { st with messages := msgsSet st.messages chatId (chatMessages ++ [message]),
                    chats := chatSet st.chats chat1 }
        { result := .ok message, state := st1,
          remoteOps := [.fetchProfiles, .touchActivity] }

/-- `ChatManager.sendMessage` as written in src/lib/chat.ts:460-635, embedded
separately because that module does not parse as a whole (see the header): the
remote persist block it adds over the part_001 variant (chat.ts:544-608) is the
code the spec's persistence-failure sentences describe.  A successful insert
upserts the sender's `sent` status (errors swallowed); a non-null `insertError`
enqueues the `PendingMessage` without throwing (chat.ts:563-577); a rejected
insert promise is caught at chat.ts:594-608, which also enqueues without
throwing.  After the persist block every path runs chat.ts:611,
`await markActive(currentUser.id);s.saveChatsToStorage();`, whose unbound `s`
raises a reference error into the outer catch (chat.ts:617-634); the catch runs
`Map.set` for the same fresh message id again (idempotent when the persist
branch already enqueued) and rethrows, so `return message` at chat.ts:616 is
never reached. -/
def sendMessageChatTs (st : ChatState) (env : SendEnv) (chatId content : String)
    (mt : MsgType := .text) (fd : Option String := none) (fn : Option String := none) :
    SendOutcome :=
  match env.currentUser with
  | none => { result := .error .authError, state := st, remoteOps := [] }
  | some uid =>
    let pending := sendPending env chatId content mt fd fn
    match chatLookup st.chats chatId with
    | none =>
      { result := .error .chatNotFound,
        state := { st with pendingMessages := pendSet st.pendingMessages pending },
        remoteOps := [] }
    | some chat =>
      if !(chat.participants.contains uid) then
        { result := .error .notParticipant,
          state := { st with pendingMessages := pendSet st.pendingMessages pending },
          remoteOps := [] }
      else if env.prepThrows then
        { result := .error .prepFailed,
          state := { st with pendingMessages := pendSet st.pendingMessages pending },
          remoteOps := [.fetchProfiles] }
      else
        let message := optimisticMessage env uid chatId content mt fd fn
        let chatMessages := (msgsLookup st.messages chatId).getD []
        let chat1 : Chat :=
          { chat with last_message := some (content.take 100),
                      last_message_at := some env.now, updated_at := env.now }
        let st1 : ChatState :=
          { st with messages := msgsSet st.messages chatId (chatMessages ++ [message]),
                    chats := chatSet st.chats chat1 }
        match env.persist with
        | .ok =>
          { result := .error .refErrorS,
            state := { st1 with pendingMessages := pendSet st1.pendingMessages pending },
            remoteOps := [.fetchProfiles, .insertMessage, .upsertStatus, .touchActivity] }
        | .rejected =>
          { result := .error .refErrorS,
            state := { st1 with pendingMessages := pendSet (pendSet st1.pendingMessages pending) pending },
            remoteOps := [.fetchProfiles, .insertMessage, .touchActivity] }
        | .thrown =>
          { result := .error .refErrorS,
            state := { st1 with pendingMessages := pendSet (pendSet st1.pendingMessages pending) pending },
            remoteOps := [.fetchProfiles, .insertMessage, .touchActivity] }

/-! ## createChat (chat.ts:193-444) -/

/-- Errors `createChat` propagates.  `refErrorUser` models the unbound identifier
`user` evaluated at chat.ts:274 inside the direct-chat deduplication loop;
`refErrorMessage` models the block chat.ts:363-427 (duplicated from `sendMessage`)
whose names `message`, `messageId`, `content`, ... are not in scope in `createChat`.
Either reference error is caught by the outer catch (chat.ts:436-443) and rethrown
unchanged (`error instanceof Error`). -/
inductive CreateError
  | authError
  | noParticipants
  | profileNotFound
  | verifyFailed
  | chatInsertFailed
  | creatorInsertFailed
  | participantsInsertFailed
  | refErrorUser
  | refErrorMessage
deriving DecidableEq, Repr

/-- Environment of one `createChat` call: resolved identity, profile resolution for
each participant ref (covers both the numeric `user_id` branch and the UUID branch,
chat.ts:213-241), the re-verification query result (chat.ts:244-256), the rows
returned by the existing-direct-chat query (chat.ts:260-267, `none` models a
non-null `existingChatError`, each row reduced to its `chat_participants` user ids —
the only row data the reachable code reads), the inserted chat row's id, the clock,
and the outcomes of the three inserts. -/
structure CreateEnv where
  currentUser : Option String
  resolve : String → Option String
  verifyOk : Bool
  existingChats : Option (List (List String))
  newChatId : String
  now : Nat
  chatInsertOk : Bool
  creatorInsertOk : Bool
  participantsInsertOk : Bool

/-- Resolution loop chat.ts:213-241: each participant ref resolves to a profile id
or the whole call throws at the first failure. -/
def resolveAll (resolve : String → Option String) : List String → Option (List String)
  | [] => some []
  | p :: ps =>
    match resolve p with
    | none => none
    | some i => (resolveAll resolve ps).map (fun rest => i :: rest)

/-- Deduplication loop chat.ts:271-288.  For each returned chat row the code reads
its participant ids; a row with exactly two participants makes it evaluate
`chatParticipants.includes(user.id)` — but no `user` is in scope (the variable is
`currentUser`), so that evaluation raises a reference error.  Rows with a
participant count other than two are skipped by the short-circuiting `&&`. -/
def scanExisting : List (List String) → Except CreateError Unit
  | [] => .ok ()
  | parts :: rest =>
    if parts.length == 2 then .error .refErrorUser else scanExisting rest

/-- `ChatManager.createChat` (chat.ts:193-444).  In source order: auth check
(thrown unwrapped), empty-participants check, per-ref profile resolution,
re-verification, the direct-chat deduplication scan (only when `!isGroup` and
exactly one resolved participant), chat-row insert, creator participant insert
(failure compensates by deleting the chat row and throwing), other-participant
inserts (same compensation), local cache insert of the new chat with an empty
message list — and then the misplaced block chat.ts:363-427, which raises a
reference error before the `return newChat` at chat.ts:435 can be reached. -/
def createChat (st : ChatState) (env : CreateEnv) (participantIds : List String)
    (isGroup : Bool := false) (name : Option String := none) :
    Except CreateError Chat × ChatState :=
  match env.currentUser with
  | none => (.error .authError, st)
  | some uid =>
    if participantIds.isEmpty then (.error .noParticipants, st)
    else
      match resolveAll env.resolve participantIds with
      | none => (.error .profileNotFound, st)
      | some profileIds =>
        if !env.verifyOk then (.error .verifyFailed, st)
        else
          let dedup : Except CreateError Unit :=
            if !isGroup && profileIds.length == 1 then
              match env.existingChats with
              | some rows => scanExisting rows
              | none => .ok ()
            else .ok ()
          match dedup with
          | .error e => (.error e, st)
          | .ok _ =>
            if !env.chatInsertOk then (.error .chatInsertFailed, st)
            else if !env.creatorInsertOk then (.error .creatorInsertFailed, st)
            else if !env.participantsInsertOk then (.error .participantsInsertFailed, st)
            else
              let newChat : Chat :=
                { id := env.newChatId, name := if isGroup then name else none,
                  is_group := isGroup, created_by := uid,
                  participants := uid :: profileIds,
                  created_at := env.now, updated_at := env.now }
              let st1 : ChatState :=
                { st with chats := chatSet st.chats newChat,
                          messages := msgsSet st.messages newChat.id [] }
              (.error .refErrorMessage, st1)

/-! ## getUserChats (chat.ts:698-777) -/

/-- One row of the `chats` query response (chat.ts:717-724); the joined
`chat_participants` payload is not read on the success path (participants come from
the per-chat follow-up query), so it is not modelled. -/
structure ChatRow where
  id : String
  name : Option String := none
  is_group : Bool
  created_by : String
  created_at : Nat
  updated_at : Nat
deriving DecidableEq, Repr

/-- Outcome of the `chats` query in `getUserChats`: data rows; null data with no
error (chat.ts:735 returns `[]`); a non-null `chatsError` (chat.ts:726-733, local
fallback); or a rejected promise (chat.ts:769-776, the same local fallback). -/
inductive RemoteChatsResult
  | success (rows : List ChatRow)
  | noData
  | errResult
  | thrown

/-- Environment of one `getUserChats` call: resolved identity, the chats-query
outcome (the query asks for `updated_at` descending, chat.ts:724), and the
per-chat `chat_participants` follow-up query (chat.ts:742-747). -/
structure GetChatsEnv where
  currentUser : Option String
  remote : RemoteChatsResult
  participantsOf : String → List String

/-- Descending `updated_at` order on cached chats, the comparator
`(a, b) => new Date(b.updated_at).getTime() - new Date(a.updated_at).getTime()`. -/
def chatGe (a b : Chat) : Prop := b.updated_at ≤ a.updated_at

instance : DecidableRel chatGe := fun a b => Nat.decLe b.updated_at a.updated_at

instance : IsTotal Chat chatGe := ⟨fun a b => Nat.le_total b.updated_at a.updated_at⟩

instance : IsTrans Chat chatGe := ⟨fun _ _ _ hab hbc => Nat.le_trans hbc hab⟩

/-- The local fallback of `getUserChats` (chat.ts:729-732 and 772-775): cached chats
filtered by membership of the caller, sorted by `updated_at` descending. -/
def localFallback (st : ChatState) (uid : String) : List Chat :=
  List.insertionSort chatGe (st.chats.filter (fun c => c.participants.contains uid))

/-- Conversion of one remote row into the cached/returned `Chat` object
(chat.ts:749-757): participants come from the follow-up query. -/
def rowToChat (env : GetChatsEnv) (row : ChatRow) : Chat :=
  { id := row.id, name := row.name, is_group := row.is_group,
    created_by := row.created_by, participants := env.participantsOf row.id,
    created_at := row.created_at, updated_at := row.updated_at }

/-- `ChatManager.getUserChats` (chat.ts:698-777).  With no authenticated user it
returns the empty list (chat.ts:700-703) — it does not throw; in fact no path of
this method throws (every failure is caught).  On a successful query the returned
list keeps the remote response order and each row is also written into the local
chat cache; on a failed query or an exception it falls back to the local scan. -/
def getUserChats (st : ChatState) (env : GetChatsEnv) : List Chat × ChatState :=
  match env.currentUser with
  | none => ([], st)
  | some uid =>
    match env.remote with
    | .errResult => (localFallback st uid, st)
    | .thrown => (localFallback st uid, st)
    | .noData => ([], st)
    | .success rows =>
      let out := rows.map (rowToChat env)
      (out, { st with chats := out.foldl (fun cs c => chatSet cs c) st.chats })

/-! ## addGroupMember / removeGroupMember (chat.ts:780-848) -/

/-- Errors of the membership operations.  The auth error is thrown unwrapped; the
others are wrapped into `'Failed to add member: ...'` / `'Failed to remove member: ...'`
by the outer catch. -/
inductive MemberError
  | authError
  | chatNotFound
  | notGroup
  | notCreator
  | userNotFound
deriving DecidableEq, Repr

/-- Environment of a membership mutation: resolved identity, the profile-existence
query of `addGroupMember` (chat.ts:800-806), and the clock. -/
structure MemberEnv where
  currentUser : Option String
  userExists : Bool
  now : Nat
deriving DecidableEq, Repr

/-- `ChatManager.addGroupMember` (chat.ts:780-818): auth, cached-chat lookup,
group check, creator-only check, profile existence, then append the member locally
if absent and bump `updated_at`. -/
def addGroupMember (st : ChatState) (env : MemberEnv) (chatId userId : String) :
    Except MemberError Unit × ChatState :=
  match env.currentUser with
  | none => (.error .authError, st)
  | some uid =>
    match chatLookup st.chats chatId with
    | none => (.error .chatNotFound, st)
    | some chat =>
      if !chat.is_group then (.error .notGroup, st)
      else if chat.created_by != uid then (.error .notCreator, st)
      else if !env.userExists then (.error .userNotFound, st)
      else if chat.participants.contains userId then (.ok (), st)
      else
        let chat1 := { chat with participants := chat.participants ++ [userId],
                                 updated_at := env.now }
        (.ok (), { st with chats := chatSet st.chats chat1 })

/-- `ChatManager.removeGroupMember` (chat.ts:821-848): auth, cached-chat lookup,
group check, creator-only check, then filter the member out locally and bump
`updated_at`. -/
def removeGroupMember (st : ChatState) (env : MemberEnv) (chatId userId : String) :
    Except MemberError Unit × ChatState :=
  match env.currentUser with
  | none => (.error .authError, st)
  | some uid =>
    match chatLookup st.chats chatId with
    | none => (.error .chatNotFound, st)
    | some chat =>
      if !chat.is_group then (.error .notGroup, st)
      else if chat.created_by != uid then (.error .notCreator, st)
      else
        let chat1 := { chat with participants := chat.participants.filter (fun i => i != userId),
                                 updated_at := env.now }
        (.ok (), { st with chats := chatSet st.chats chat1 })

/-! ## updateMessageStatus (chat.ts:638-682) -/

/-- The status argument accepted by `updateMessageStatus`, `'delivered' | 'seen'`. -/
inductive UpdStatus
  | delivered
  | seen
deriving DecidableEq, Repr

/-- Injection of the argument type into the stored status type. -/
def updToStatus : UpdStatus → MsgStatus
  | .delivered => .delivered
  | .seen => .seen

/-- Environment of one `updateMessageStatus` call: resolved identity, whether the
remote `message_statuses` upsert reported an error (chat.ts:653-656 returns early,
skipping the local update), the clock, and the locally generated status-row id. -/
structure StatusEnv where
  currentUser : Option String
  upsertOk : Bool
  now : Nat
  localId : String
deriving DecidableEq, Repr

/-- Local status update for one message (chat.ts:662-675): overwrite the existing
entry of the current user, else push a fresh one. -/
def updStatusList (sts : List MessageStatus) (uid messageId : String) (s : MsgStatus)
    (env : StatusEnv) : List MessageStatus :=
  if (sts.find? (fun r => r.user_id == uid)).isSome then
    sts.map (fun r => if r.user_id == uid then { r with status := s, updated_at := env.now } else r)
  else
    sts ++ [{ id := env.localId, message_id := messageId, user_id := uid,
              status := s, updated_at := env.now }]

/-- The cache walk of `updateMessageStatus` (chat.ts:659-678): the first chat whose
message list contains the message id gets its copy updated, then the loop breaks. -/
def updateMessagesMap (uid messageId : String) (s : MsgStatus) (env : StatusEnv) :
    List (String × List Message) → List (String × List Message)
  | [] => []
  | (cid, msgs) :: rest =>
    if (msgs.find? (fun m => m.id == messageId)).isSome then
      (cid, msgs.map (fun m =>
        if m.id == messageId then
          { m with status := updStatusList m.status uid messageId s env }
        else m)) :: rest
    else (cid, msgs) :: updateMessagesMap uid messageId s env rest

/-- `ChatManager.updateMessageStatus` (chat.ts:638-682).  Never throws (the whole
body is wrapped, errors are logged).  The remote upsert carries the argument status
unconditionally with `onConflict: ['message_id','user_id']`, i.e. it overwrites the
stored row; the local update below likewise overwrites unconditionally. -/
def updateMessageStatus (st : ChatState) (env : StatusEnv) (messageId : String)
    (status : UpdStatus) : ChatState :=
  match env.currentUser with
  | none => st
  | some uid =>
    if !env.upsertOk then st
    else { st with messages := updateMessagesMap uid messageId (updToStatus status) env st.messages }

/-- Reading back the status stored for `(messageId, uid)` along the same walk the
update uses: first chat containing the message, first status entry of that user. -/
def lookupStatus : List (String × List Message) → String → String → Option MsgStatus
  | [], _, _ => none
  | (_, msgs) :: rest, messageId, uid =>
    match msgs.find? (fun m => m.id == messageId) with
    | some m => (m.status.find? (fun r => r.user_id == uid)).map (fun r => r.status)
    | none => lookupStatus rest messageId uid

/-! ## retryPendingMessages (chat.ts:162-190) -/

/-- Body of one loop iteration of `retryPendingMessages` for the snapshot entry `m`:
below the retry bound, attempt the send — delete the entry on success, increment
`retry_count` and store it back on failure; at or above the bound, delete without
attempting.  `ok` is whether the inner `this.sendMessage(...)` call resolved. -/
def processEntry (pend : List PendingMessage) (m : PendingMessage) (ok : Bool) :
    List PendingMessage :=
  if m.retry_count < 5 then
    if ok then pendDelete pend m.id
    else pendSet pend { m with retry_count := m.retry_count + 1 }
  else pendDelete pend m.id

/-- The loop of `retryPendingMessages` over the snapshot
`Array.from(this.pendingMessages.values())`, threading the live map. -/
def retryLoop (oracle : PendingMessage → Bool) :
    List PendingMessage → List PendingMessage → List PendingMessage
  | pend, [] => pend
  | pend, m :: ms => retryLoop oracle (processEntry pend m (oracle m)) ms

/-- `ChatManager.retryPendingMessages` (chat.ts:162-190): snapshot the pending map,
run the loop.  `oracle m` abstracts whether the re-run `sendMessage` for entry `m`
resolves on this tick (its state effects are confined to a freshly generated message
id, never to the ids already in the snapshot, so they do not appear here). -/
def retryPendingMessages (pend : List PendingMessage) (oracle : PendingMessage → Bool) :
    List PendingMessage :=
  retryLoop oracle pend pend

/-- Number of send attempts one tick performs for the entry with id `i` (one when
the entry is present below the retry bound, none otherwise). -/
def tickAttempts (pend : List PendingMessage) (i : String) : Nat :=
  match pendLookup pend i with
  | some m => if m.retry_count < 5 then 1 else 0
  | none => 0

/-- Cumulative send attempts for id `i` over a run of ticks, each tick driven by its
own resolution oracle. -/
def runAttempts (pend : List PendingMessage) (i : String) :
    List (PendingMessage → Bool) → Nat
  | [] => 0
  | f :: fs => tickAttempts pend i + runAttempts (retryPendingMessages pend f) i fs

/-- Whether a `sendMessage` call resolved (returned a Message) rather than threw. -/
def sendOk (o : SendOutcome) : Bool :=
  match o.result with
  | .ok _ => true
  | .error _ => false

/-- Number of pending entries carrying a given message id. -/
def countId (ps : List PendingMessage) (i : String) : Nat :=
  (ps.filter (fun p => p.id == i)).length

/-- Ids held by the pending map (unique by the `Map` invariant). -/
def pendIds (ps : List PendingMessage) : List String := ps.map (fun p => p.id)

/-- Remaining permitted attempts for the entry with id `i` (five minus its
retry count; zero when absent). -/
def pendBudget (pend : List PendingMessage) (i : String) : Nat :=
  match pendLookup pend i with
  | some m => 5 - m.retry_count
  | none => 0

/-- Descending `updated_at` order on remote chat rows, the order the
`getUserChats` query requests (chat.ts:724). -/
def rowGe (a b : ChatRow) : Prop := b.updated_at ≤ a.updated_at

/-! ## Concrete sample data -/

/-- Sample identity. -/
def userA : String := "alice"

/-- Sample identity. -/
def userB : String := "bob"

/-- A cached direct chat between `userA` and `userB`. -/
def chatAB : Chat :=
  { id := "chat-ab", is_group := false, created_by := userA,
    participants := [userA, userB], created_at := 100, updated_at := 100 }

/-- State holding the direct chat, no messages, no pending entries. -/
def stAB : ChatState :=
  { chats := [chatAB], messages := [("chat-ab", [])], pendingMessages := [] }

/-- The empty state. -/
def stEmpty : ChatState := { chats := [], messages := [], pendingMessages := [] }

/-- Send environment: authenticated as `userA`, remote persist succeeds. -/
def envOkA : SendEnv :=
  { currentUser := some userA, messageId := "msg-1", now := 200,
    prepThrows := false, persist := .ok }

/-- Send environment: authenticated as `userA`, remote insert rejected
(non-null `insertError`). -/
def envRejectedA : SendEnv :=
  { currentUser := some userA, messageId := "msg-1", now := 200,
    prepThrows := false, persist := .rejected }

/-- Send environment: authenticated as `userA`, remote insert throws
(database unreachable). -/
def envThrownA : SendEnv :=
  { currentUser := some userA, messageId := "msg-2", now := 250,
    prepThrows := false, persist := .thrown }

/-- Send environment with no active session. -/
def envNoAuth : SendEnv :=
  { currentUser := none, messageId := "msg-3", now := 260,
    prepThrows := false, persist := .ok }

/-- Create environment for the duplicate-direct-chat scenario: caller `userA`,
the single ref resolves to `userB`, and the Remote Store already holds a
non-group chat whose participant set is exactly the two of them. -/
def envDirectDup : CreateEnv :=
  { currentUser := some userA, resolve := fun _ => some userB, verifyOk := true,
    existingChats := some [[userA, userB]], newChatId := "chat-new", now := 400,
    chatInsertOk := true, creatorInsertOk := true, participantsInsertOk := true }

/-- Chats environment with no active session. -/
def envChatsNoAuth : GetChatsEnv :=
  { currentUser := none, remote := .errResult, participantsOf := fun _ => [] }

/-- Remote rows already ordered by `updated_at` descending. -/
def rowFresh : ChatRow :=
  { id := "chat-f", is_group := false, created_by := userA, created_at := 480, updated_at := 500 }

/-- Remote row older than `rowFresh`. -/
def rowOld : ChatRow :=
  { id := "chat-o", is_group := false, created_by := userA, created_at := 380, updated_at := 400 }

/-- Chats environment whose remote query succeeds with a sorted response. -/
def envChatsOk : GetChatsEnv :=
  { currentUser := some userA, remote := .success [rowFresh, rowOld],
    participantsOf := fun _ => [userA, userB] }

/-- Chats environment whose remote query fails, forcing the local fallback. -/
def envChatsErr : GetChatsEnv :=
  { currentUser := some userA, remote := .errResult, participantsOf := fun _ => [] }

/-- A message whose status for `userA` is already `seen`. -/
def msgSeen : Message :=
  { id := "m1", chat_id := "chat-ab", sender_id := userB, message_type := .text,
    created_at := 150, expires_at := 150 + sevenDaysMs, content := some "hello",
    status := [{ id := "s1", message_id := "m1", user_id := userA,
                 status := .seen, updated_at := 160 }] }

/-- State holding `msgSeen` inside the direct chat. -/
def stSeen : ChatState :=
  { chats := [chatAB], messages := [("chat-ab", [msgSeen])], pendingMessages := [] }

/-- Status environment: authenticated as `userA`, remote upsert succeeds. -/
def envStatusA : StatusEnv :=
  { currentUser := some userA, upsertOk := true, now := 300, localId := "s-loc" }

/-- A pending entry with zero retries. -/
def pending0 : PendingMessage :=
  { id := "msg-p", chat_id := "chat-ab", content := "queued", message_type := .text,
    retry_count := 0, created_at := 180 }

/-! ## Helper lemmas about the pending map -/

theorem pendSet_of_lookup_none (ps : List PendingMessage) (p : PendingMessage)
    (h : pendLookup ps p.id = none) : pendSet ps p = ps ++ [p] := by
  unfold pendLookup at h
  unfold pendSet
  simp [h]

theorem countId_of_lookup_none (ps : List PendingMessage) (i : String)
    (h : pendLookup ps i = none) : countId ps i = 0 := by
  have h2 : ∀ p ∈ ps, ¬ (p.id == i) = true := by
    simpa [pendLookup, List.find?_eq_none] using h
  unfold countId
  simp [List.filter_eq_nil_iff.mpr h2]

theorem countId_map_replace (ps : List PendingMessage) (p : PendingMessage) :
    countId (ps.map (fun x => if x.id == p.id then p else x)) p.id = countId ps p.id := by
  unfold countId
  induction ps with
  | nil => rfl
  | cons x xs ih =>
    by_cases hx : (x.id == p.id) = true
    · simp only [List.map_cons, if_pos hx, List.filter_cons, hx, beq_self_eq_true,
        if_true, List.length_cons]
      omega
    · have hx2 : (x.id == p.id) = false := by
        cases hb : (x.id == p.id) with
        | false => rfl
        | true => exact absurd hb hx
      simp only [List.map_cons, hx2, Bool.false_eq_true, if_false, List.filter_cons]
      exact ih

theorem countId_pos (ps : List PendingMessage) (i : String) (q : PendingMessage)
    (h : pendLookup ps i = some q) : 1 ≤ countId ps i := by
  unfold pendLookup at h
  unfold countId
  induction ps with
  | nil => exact Option.noConfusion h
  | cons x xs ih =>
    cases hx : (x.id == i) with
    | true =>
      simp [List.filter_cons, hx]
    | false =>
      rw [List.find?_cons, hx] at h
      simp only [List.filter_cons, hx, Bool.false_eq_true, if_false]
      exact ih h

theorem countId_pendSet (ps : List PendingMessage) (p : PendingMessage)
    (h : countId ps p.id ≤ 1) : countId (pendSet ps p) p.id = 1 := by
  unfold pendSet
  cases hl : ps.find? (fun x => x.id == p.id) with
  | none =>
    have h0 : countId ps p.id = 0 := countId_of_lookup_none ps p.id hl
    unfold countId at h0 ⊢
    simp [List.filter_append, h0, List.length_eq_zero.mp h0]
  | some q =>
    have hpos : 1 ≤ countId ps p.id := countId_pos ps p.id q hl
    have hmap := countId_map_replace ps p
    simp only [hl, Option.isSome_some, if_true]
    omega

theorem mem_pendSet_of_ne (ps : List PendingMessage) (p q : PendingMessage)
    (hq : q ∈ pendSet ps p) (hne : ¬ q.id = p.id) : q ∈ ps := by
  unfold pendSet at hq
  by_cases hf : (ps.find? (fun x => x.id == p.id)).isSome
  · simp only [hf, if_true] at hq
    obtain ⟨x, hx, hfx⟩ := List.mem_map.1 hq
    by_cases hxid : (x.id == p.id) = true
    · rw [if_pos hxid] at hfx
      subst hfx
      exact absurd rfl hne
    · rw [if_neg hxid] at hfx
      subst hfx
      exact hx
  · simp only [hf, if_false] at hq
    rcases List.mem_append.1 hq with h | h
    · exact h
    · rw [List.mem_singleton.1 h] at hne
      exact absurd rfl hne

/-! ## C9 -/

/-- C9: every Message constructed by `sendMessage` carries
`expires_at = created_at + 7 days` (chat.ts:525-526, both fields drawn from the
same clock reading of the call). -/
theorem sendMessage_expires_seven_days (st : ChatState) (env : SendEnv)
    (chatId content : String) (mt : MsgType) (fd fn : Option String) (m : Message)
    (h : (sendMessage st env chatId content mt fd fn).result = .ok m) :
    m.expires_at = m.created_at + 7 * 24 * 60 * 60 * 1000 := by
  unfold sendMessage at h
  rcases hcu : env.currentUser with _ | uid <;> rw [hcu] at h
  · simp at h
  · rcases hcl : chatLookup st.chats chatId with _ | chat <;> rw [hcl] at h
    · simp at h
    · by_cases hp : chat.participants.contains uid
      · simp only [hp, Bool.not_true, Bool.false_eq_true, if_false] at h
        by_cases hpt : env.prepThrows
        · simp [hpt] at h
        · simp only [hpt, Bool.false_eq_true, if_false] at h
          simp only [Except.ok.injEq] at h
          rw [← h]
          rfl
      · rw [Bool.not_eq_true] at hp
        simp only [hp, Bool.not_false, if_true] at h
        exact Except.noConfusion h

/-- Witness for C9 at a concrete successful send. -/
theorem sendMessage_expires_seven_days_witness :
    ({ id := "msg-1", chat_id := "chat-ab", sender_id := userA, message_type := .text,
       file_name := none, file_size := none, reply_to := none, created_at := 200,
       expires_at := 200 + sevenDaysMs, content := some "hi",
       status := [] } : Message).expires_at =
      200 + 7 * 24 * 60 * 60 * 1000 :=
  sendMessage_expires_seven_days stAB envOkA "chat-ab" "hi" .text none none _ rfl

/-! ## C5 -/

/-- C5: with an authenticated caller and a chat id absent from the local cache,
`sendMessage` fails with the chat-not-found error (chat.ts:482-485) and performs no
remote call at all — in particular it never fetches the chat from the Remote
Store. -/
theorem sendMessage_absent_chat_fails (st : ChatState) (env : SendEnv)
    (chatId content : String) (mt : MsgType) (fd fn : Option String) (uid : String)
    (hu : env.currentUser = some uid)
    (habs : chatLookup st.chats chatId = none) :
    (sendMessage st env chatId content mt fd fn).result = .error .chatNotFound ∧
    (sendMessage st env chatId content mt fd fn).remoteOps = [] := by
  unfold sendMessage
  rw [hu, habs]
  exact ⟨rfl, rfl⟩

/-- Witness for C5: sending into a chat id the cache does not hold. -/
theorem sendMessage_absent_chat_fails_witness :
    (sendMessage stAB envOkA "chat-zz" "hi" .text none none).result =
      .error .chatNotFound ∧
    (sendMessage stAB envOkA "chat-zz" "hi" .text none none).remoteOps = [] :=
  sendMessage_absent_chat_fails stAB envOkA "chat-zz" "hi" .text none none userA rfl rfl

/-! ## C1 -/

/-- C1: with the chat cached, the caller an authenticated active participant, and
a fresh message id, `sendMessage` either returns the optimistic Message with the
pending queue untouched, or throws having appended exactly one PendingMessage
with retry-count 0 under the fresh message id — never both a normal return and a
pending entry, and never more than one entry. -/
theorem sendMessage_return_xor_pending (st : ChatState) (env : SendEnv)
    (chatId content : String) (mt : MsgType) (fd fn : Option String)
    (uid : String) (chat : Chat)
    (hu : env.currentUser = some uid)
    (hc : chatLookup st.chats chatId = some chat)
    (hp : chat.participants.contains uid = true)
    (hfresh : pendLookup st.pendingMessages env.messageId = none) :
    ((sendMessage st env chatId content mt fd fn).result =
        .ok (optimisticMessage env uid chatId content mt fd fn) ∧
      (sendMessage st env chatId content mt fd fn).state.pendingMessages =
        st.pendingMessages) ∨
    ((∃ e, (sendMessage st env chatId content mt fd fn).result = .error e) ∧
      (sendMessage st env chatId content mt fd fn).state.pendingMessages =
        st.pendingMessages ++ [sendPending env chatId content mt fd fn]) := by
  have hap : pendSet st.pendingMessages (sendPending env chatId content mt fd fn) =
      st.pendingMessages ++ [sendPending env chatId content mt fd fn] :=
    pendSet_of_lookup_none _ _ hfresh
  have hin : uid ∈ chat.participants := List.mem_of_elem_eq_true hp
  cases hpt : env.prepThrows with
  | false =>
    left
    constructor <;> simp [sendMessage, hu, hc, hin, hpt]
  | true =>
    right
    refine ⟨⟨.prepFailed, ?_⟩, ?_⟩ <;> simp [sendMessage, hu, hc, hin, hpt, hap]

/-- Witness for C1 at a concrete successful send. -/
theorem sendMessage_return_xor_pending_witness :
    ((sendMessage stAB envOkA "chat-ab" "hi" .text none none).result =
        .ok (optimisticMessage envOkA userA "chat-ab" "hi" .text none none) ∧
      (sendMessage stAB envOkA "chat-ab" "hi" .text none none).state.pendingMessages =
        stAB.pendingMessages) ∨
    ((∃ e, (sendMessage stAB envOkA "chat-ab" "hi" .text none none).result = .error e) ∧
      (sendMessage stAB envOkA "chat-ab" "hi" .text none none).state.pendingMessages =
        stAB.pendingMessages ++ [sendPending envOkA "chat-ab" "hi" .text none none]) :=
  sendMessage_return_xor_pending stAB envOkA "chat-ab" "hi" .text none none
    userA chatAB rfl rfl rfl rfl

/-! ## C2 -/

/-- C2: on any remote-persistence failure of the chat.ts variant of sendMessage
(the only variant with a remote persist step), the PendingMessage enqueue is
idempotent by message id — the failing call runs `Map.set` for the same fresh id
twice (persist branch, chat.ts:566-577 or 596-607, and the outer catch,
chat.ts:619-631) and exactly one entry with that id results, entries with other
ids untouched — and the failure is propagated to the caller (the call throws,
through the corrupted tail at chat.ts:611 into the outer catch) even though the
optimistic local copy already sits in the chat's message list. -/
theorem sendMessageChatTs_persist_failure (st : ChatState) (env : SendEnv)
    (chatId content : String) (mt : MsgType) (fd fn : Option String)
    (uid : String) (chat : Chat)
    (hu : env.currentUser = some uid)
    (hc : chatLookup st.chats chatId = some chat)
    (hp : chat.participants.contains uid = true)
    (hpt : env.prepThrows = false)
    (hps : ¬ env.persist = .ok)
    (hcnt : countId st.pendingMessages env.messageId ≤ 1) :
    (∃ e, (sendMessageChatTs st env chatId content mt fd fn).result = .error e) ∧
    countId (sendMessageChatTs st env chatId content mt fd fn).state.pendingMessages
      env.messageId = 1 ∧
    (∀ q ∈ (sendMessageChatTs st env chatId content mt fd fn).state.pendingMessages,
      ¬ q.id = env.messageId → q ∈ st.pendingMessages) ∧
    (sendMessageChatTs st env chatId content mt fd fn).state.messages =
      msgsSet st.messages chatId ((msgsLookup st.messages chatId).getD [] ++
        [optimisticMessage env uid chatId content mt fd fn]) := by
  have hone : countId (pendSet (pendSet st.pendingMessages
      (sendPending env chatId content mt fd fn))
      (sendPending env chatId content mt fd fn)) env.messageId = 1 := by
    have h1 : countId (pendSet st.pendingMessages
        (sendPending env chatId content mt fd fn)) env.messageId = 1 :=
      countId_pendSet st.pendingMessages _ hcnt
    exact countId_pendSet _ _ (Nat.le_of_eq h1)
  have hkeep : ∀ q ∈ pendSet (pendSet st.pendingMessages
      (sendPending env chatId content mt fd fn))
      (sendPending env chatId content mt fd fn),
      ¬ q.id = env.messageId → q ∈ st.pendingMessages :=
    fun q hq hne => mem_pendSet_of_ne _ _ q (mem_pendSet_of_ne _ _ q hq hne) hne
  have hin : uid ∈ chat.participants := List.mem_of_elem_eq_true hp
  have hrese : (sendMessageChatTs st env chatId content mt fd fn).result =
      .error .refErrorS := by
    rcases hps2 : env.persist with _ | _ | _
    · exact absurd hps2 hps
    · simp [sendMessageChatTs, hu, hc, hin, hpt, hps2]
    · simp [sendMessageChatTs, hu, hc, hin, hpt, hps2]
  have hredp : (sendMessageChatTs st env chatId content mt fd fn).state.pendingMessages =
      pendSet (pendSet st.pendingMessages (sendPending env chatId content mt fd fn))
        (sendPending env chatId content mt fd fn) := by
    rcases hps2 : env.persist with _ | _ | _
    · exact absurd hps2 hps
    · simp [sendMessageChatTs, hu, hc, hin, hpt, hps2]
    · simp [sendMessageChatTs, hu, hc, hin, hpt, hps2]
  have hredm : (sendMessageChatTs st env chatId content mt fd fn).state.messages =
      msgsSet st.messages chatId ((msgsLookup st.messages chatId).getD [] ++
        [optimisticMessage env uid chatId content mt fd fn]) := by
    rcases hps2 : env.persist with _ | _ | _
    · exact absurd hps2 hps
    · simp [sendMessageChatTs, hu, hc, hin, hpt, hps2]
    · simp [sendMessageChatTs, hu, hc, hin, hpt, hps2]
  exact ⟨⟨.refErrorS, hrese⟩, by rw [hredp]; exact hone,
    by rw [hredp]; exact hkeep, hredm⟩

/-- Witness for C2 at a concrete rejected insert. -/
theorem sendMessageChatTs_persist_failure_witness :
    (∃ e, (sendMessageChatTs stAB envRejectedA "chat-ab" "yo" .text none none).result =
      .error e) ∧
    countId (sendMessageChatTs stAB envRejectedA "chat-ab" "yo" .text none none).state.pendingMessages
      "msg-1" = 1 ∧
    (∀ q ∈ (sendMessageChatTs stAB envRejectedA "chat-ab" "yo" .text none none).state.pendingMessages,
      ¬ q.id = "msg-1" → q ∈ stAB.pendingMessages) ∧
    (sendMessageChatTs stAB envRejectedA "chat-ab" "yo" .text none none).state.messages =
      msgsSet stAB.messages "chat-ab" ((msgsLookup stAB.messages "chat-ab").getD [] ++
        [optimisticMessage envRejectedA userA "chat-ab" "yo" .text none none]) :=
  sendMessageChatTs_persist_failure stAB envRejectedA "chat-ab" "yo" .text none none
    userA chatAB rfl rfl rfl rfl (by decide) (by decide)

/-! ## C10 -/

/-- C10 counterexample: an unauthenticated `sendMessage` call throws before the
message id and the `try` block exist (chat.ts:467-470), so it leaves the pending
queue unchanged — contradicting that every failing call enqueues an entry. -/
theorem sendMessage_noauth_leaves_queue :
    (sendMessage stAB envNoAuth "chat-ab" "hi").result = .error .authError ∧
    (sendMessage stAB envNoAuth "chat-ab" "hi").state.pendingMessages = [] :=
  ⟨rfl, rfl⟩

/-- C10 amended: whenever `sendMessage` throws after the authentication check
passes, it appends exactly one PendingMessage with retry-count 0 under the freshly
generated id before propagating; an unauthenticated call throws with the pending
queue unchanged. -/
theorem sendMessage_error_enqueues (st : ChatState) (env : SendEnv)
    (chatId content : String) (mt : MsgType) (fd fn : Option String) (e : SendError)
    (hfresh : pendLookup st.pendingMessages env.messageId = none)
    (herr : (sendMessage st env chatId content mt fd fn).result = .error e) :
    (e = .authError ∧ env.currentUser = none ∧
      (sendMessage st env chatId content mt fd fn).state.pendingMessages =
        st.pendingMessages) ∨
    (¬ e = .authError ∧
      (sendMessage st env chatId content mt fd fn).state.pendingMessages =
        st.pendingMessages ++ [sendPending env chatId content mt fd fn]) := by
  have hap : pendSet st.pendingMessages (sendPending env chatId content mt fd fn) =
      st.pendingMessages ++ [sendPending env chatId content mt fd fn] :=
    pendSet_of_lookup_none _ _ hfresh
  rcases hcu : env.currentUser with _ | uid
  · left
    simp only [sendMessage, hcu, Except.error.injEq] at herr
    exact ⟨herr.symm, rfl, by simp [sendMessage, hcu]⟩
  · right
    rcases hcl : chatLookup st.chats chatId with _ | chat
    · simp only [sendMessage, hcu, hcl, Except.error.injEq] at herr
      subst herr
      exact ⟨by simp, by simp [sendMessage, hcu, hcl, hap]⟩
    · by_cases hin : uid ∈ chat.participants
      · have hcont : chat.participants.contains uid = true := by simpa using hin
        by_cases hpt : env.prepThrows
        · simp only [sendMessage, hcu, hcl, hcont, Bool.not_true, Bool.false_eq_true,
            if_false, hpt, if_true, Except.error.injEq] at herr
          subst herr
          refine ⟨by simp, ?_⟩
          simp [sendMessage, hcu, hcl, hin, hpt, hap]
        · have hok : sendOk (sendMessage st env chatId content mt fd fn) = true := by
            simp [sendMessage, sendOk, hcu, hcl, hin, hpt]
          unfold sendOk at hok
          rw [herr] at hok
          exact Bool.noConfusion hok
      · have hcont : chat.participants.contains uid = false := by
          cases hb : chat.participants.contains uid with
          | false => rfl
          | true => exact absurd (List.mem_of_elem_eq_true hb) hin
        simp only [sendMessage, hcu, hcl, hcont, Bool.not_false, if_true,
          Except.error.injEq] at herr
        subst herr
        refine ⟨by simp, ?_⟩
        simp [sendMessage, hcu, hcl, hin, hap]

/-- Witness for C10 amended: a chat-not-found failure enqueues the entry. -/
theorem sendMessage_error_enqueues_witness :
    (SendError.chatNotFound = .authError ∧ envThrownA.currentUser = none ∧
      (sendMessage stEmpty envThrownA "chat-ab" "hi" .text none none).state.pendingMessages =
        stEmpty.pendingMessages) ∨
    (¬ SendError.chatNotFound = .authError ∧
      (sendMessage stEmpty envThrownA "chat-ab" "hi" .text none none).state.pendingMessages =
        stEmpty.pendingMessages ++
          [sendPending envThrownA "chat-ab" "hi" .text none none]) :=
  sendMessage_error_enqueues stEmpty envThrownA "chat-ab" "hi" .text none none
    .chatNotFound rfl rfl

/-! ## Helper lemmas about find? and the retry loop -/

theorem find?_cons_true {α : Type} (p : α → Bool) (x : α) (xs : List α)
    (h : p x = true) : (x :: xs).find? p = some x := by
  rw [List.find?_cons, h]

theorem find?_cons_false {α : Type} (p : α → Bool) (x : α) (xs : List α)
    (h : p x = false) : (x :: xs).find? p = xs.find? p := by
  rw [List.find?_cons, h]

theorem find?_some_pred {α : Type} (p : α → Bool) (l : List α) (a : α)
    (h : l.find? p = some a) : p a = true := by
  induction l with
  | nil => exact Option.noConfusion h
  | cons x xs ih =>
    cases hx : p x with
    | true =>
      rw [find?_cons_true p x xs hx] at h
      injection h with h2
      rw [← h2]
      exact hx
    | false =>
      rw [find?_cons_false p x xs hx] at h
      exact ih h

theorem find?_append_singleton_ne {α : Type} (p : α → Bool) (l : List α) (a : α)
    (h : p a = false) : (l ++ [a]).find? p = l.find? p := by
  induction l with
  | nil =>
    rw [List.nil_append, find?_cons_false p a [] h]
  | cons x xs ih =>
    rw [List.cons_append]
    cases hx : p x with
    | true => rw [find?_cons_true p x _ hx, find?_cons_true p x xs hx]
    | false => rw [find?_cons_false p x _ hx, find?_cons_false p x xs hx]; exact ih

theorem find?_map_replace_self (ps : List PendingMessage) (p : PendingMessage) :
    (ps.map (fun x => if x.id == p.id then p else x)).find? (fun x => x.id == p.id) =
      (ps.find? (fun x => x.id == p.id)).map (fun _ => p) := by
  induction ps with
  | nil => rfl
  | cons x xs ih =>
    cases hx : (x.id == p.id) with
    | true =>
      rw [List.map_cons, if_pos hx,
          find?_cons_true (fun q => q.id == p.id) p _ (by simp),
          find?_cons_true (fun q => q.id == p.id) x xs hx]
      rfl
    | false =>
      rw [List.map_cons, if_neg (by simp [hx]),
          find?_cons_false (fun q => q.id == p.id) x _ hx,
          find?_cons_false (fun q => q.id == p.id) x xs hx]
      exact ih

theorem find?_map_replace_ne (ps : List PendingMessage) (p : PendingMessage)
    (i : String) (h : ¬ p.id = i) :
    (ps.map (fun x => if x.id == p.id then p else x)).find? (fun x => x.id == i) =
      ps.find? (fun x => x.id == i) := by
  induction ps with
  | nil => rfl
  | cons x xs ih =>
    cases hx : (x.id == p.id) with
    | true =>
      have hxp : x.id = p.id := by simpa using hx
      have hpi : (p.id == i) = false := by
        cases hb : (p.id == i) with
        | false => rfl
        | true => exact absurd (by simpa using hb) h
      have hxi : (x.id == i) = false := by rw [hxp]; exact hpi
      rw [List.map_cons, if_pos hx,
          find?_cons_false (fun x => x.id == i) p _ hpi,
          find?_cons_false (fun x => x.id == i) x xs hxi]
      exact ih
    | false =>
      rw [List.map_cons, if_neg (by simp [hx])]
      cases hxi : (x.id == i) with
      | true =>
        rw [find?_cons_true (fun x => x.id == i) x _ hxi,
            find?_cons_true (fun x => x.id == i) x xs hxi]
      | false =>
        rw [find?_cons_false (fun x => x.id == i) x _ hxi,
            find?_cons_false (fun x => x.id == i) x xs hxi]
        exact ih

theorem pendLookup_pendDelete_self (ps : List PendingMessage) (j : String) :
    pendLookup (pendDelete ps j) j = none := by
  unfold pendLookup pendDelete
  rw [List.find?_eq_none]
  intro p hp
  have h2 := (List.mem_filter.1 hp).2
  simp only [bne_iff_ne, ne_eq, decide_eq_true_eq] at h2
  simp [h2]

theorem pendLookup_pendDelete_ne (ps : List PendingMessage) (i j : String)
    (h : ¬ j = i) : pendLookup (pendDelete ps j) i = pendLookup ps i := by
  unfold pendLookup pendDelete
  induction ps with
  | nil => rfl
  | cons x xs ih =>
    rw [List.filter_cons]
    by_cases hxj : x.id = j
    · have hcond : (x.id != j) = false := by simp [hxj]
      rw [hcond]
      simp only [Bool.false_eq_true, if_false]
      have hxi : (x.id == i) = false := by
        rw [hxj]
        cases hb : (j == i) with
        | false => rfl
        | true => exact absurd (by simpa using hb) h
      rw [find?_cons_false (fun p => p.id == i) x xs hxi]
      exact ih
    · have hcond : (x.id != j) = true := by simp [hxj]
      rw [hcond]
      simp only [if_true]
      cases hxi : (x.id == i) with
      | true =>
        rw [find?_cons_true (fun p => p.id == i) x _ hxi,
            find?_cons_true (fun p => p.id == i) x xs hxi]
      | false =>
        rw [find?_cons_false (fun p => p.id == i) x _ hxi,
            find?_cons_false (fun p => p.id == i) x xs hxi]
        exact ih

theorem pendLookup_pendSet_self (ps : List PendingMessage) (p : PendingMessage) :
    pendLookup (pendSet ps p) p.id = some p := by
  unfold pendSet pendLookup
  cases hf : ps.find? (fun x => x.id == p.id) with
  | none =>
    rw [if_neg (by simp [hf])]
    induction ps with
    | nil => exact find?_cons_true (fun q => q.id == p.id) p [] (by simp)
    | cons x xs ih =>
      cases hx : (x.id == p.id) with
      | true =>
        rw [find?_cons_true (fun q => q.id == p.id) x xs hx] at hf
        exact Option.noConfusion hf
      | false =>
        rw [find?_cons_false (fun q => q.id == p.id) x xs hx] at hf
        rw [List.cons_append, find?_cons_false (fun q => q.id == p.id) x _ hx]
        exact ih hf
  | some q =>
    rw [if_pos (by simp [hf])]
    rw [find?_map_replace_self, hf]
    rfl

theorem pendLookup_pendSet_ne (ps : List PendingMessage) (p : PendingMessage)
    (i : String) (h : ¬ p.id = i) :
    pendLookup (pendSet ps p) i = pendLookup ps i := by
  unfold pendSet pendLookup
  by_cases hf : (ps.find? (fun x => x.id == p.id)).isSome
  · rw [if_pos hf]
    exact find?_map_replace_ne ps p i h
  · rw [if_neg hf]
    have hpi : (p.id == i) = false := by
      cases hb : (p.id == i) with
      | false => rfl
      | true => exact absurd (by simpa using hb) h
    exact find?_append_singleton_ne (fun x => x.id == i) ps p hpi

theorem pendLookup_processEntry_self (pend : List PendingMessage)
    (m : PendingMessage) (ok : Bool) :
    pendLookup (processEntry pend m ok) m.id =
      if m.retry_count < 5 then
        (if ok = true then none else some { m with retry_count := m.retry_count + 1 })
      else none := by
  unfold processEntry
  by_cases hrc : m.retry_count < 5
  · rw [if_pos hrc, if_pos hrc]
    cases ok with
    | true =>
      simp only [if_true]
      exact pendLookup_pendDelete_self pend m.id
    | false =>
      simp only [Bool.false_eq_true, if_false]
      exact pendLookup_pendSet_self pend { m with retry_count := m.retry_count + 1 }
  · rw [if_neg hrc, if_neg hrc]
    exact pendLookup_pendDelete_self pend m.id

theorem pendLookup_processEntry_ne (pend : List PendingMessage)
    (m : PendingMessage) (ok : Bool) (i : String) (h : ¬ m.id = i) :
    pendLookup (processEntry pend m ok) i = pendLookup pend i := by
  unfold processEntry
  by_cases hrc : m.retry_count < 5
  · rw [if_pos hrc]
    cases ok with
    | true =>
      simp only [if_true]
      exact pendLookup_pendDelete_ne pend i m.id h
    | false =>
      simp only [Bool.false_eq_true, if_false]
      exact pendLookup_pendSet_ne pend { m with retry_count := m.retry_count + 1 } i h
  · rw [if_neg hrc]
    exact pendLookup_pendDelete_ne pend i m.id h

theorem retryLoop_lookup_not_mem (oracle : PendingMessage → Bool)
    (snap : List PendingMessage) (i : String) :
    ∀ pend : List PendingMessage, (∀ m ∈ snap, ¬ m.id = i) →
      pendLookup (retryLoop oracle pend snap) i = pendLookup pend i := by
  induction snap with
  | nil =>
    intro pend _
    rfl
  | cons x xs ih =>
    intro pend h
    calc pendLookup (retryLoop oracle pend (x :: xs)) i
        = pendLookup (retryLoop oracle (processEntry pend x (oracle x)) xs) i := rfl
      _ = pendLookup (processEntry pend x (oracle x)) i :=
          ih _ (fun m hm => h m (List.mem_cons_of_mem x hm))
      _ = pendLookup pend i :=
          pendLookup_processEntry_ne pend x (oracle x) i (h x (List.mem_cons_self x xs))

theorem retryLoop_lookup_mem (oracle : PendingMessage → Bool) :
    ∀ (snap pend : List PendingMessage) (m : PendingMessage),
      (pendIds snap).Nodup → m ∈ snap →
      pendLookup (retryLoop oracle pend snap) m.id =
        if m.retry_count < 5 then
          (if oracle m = true then none
           else some { m with retry_count := m.retry_count + 1 })
        else none := by
  intro snap
  induction snap with
  | nil =>
    intro pend m _ hm
    cases hm
  | cons x xs ih =>
    intro pend m hnd hm
    rw [pendIds, List.map_cons, List.nodup_cons] at hnd
    rcases List.mem_cons.1 hm with hmx | hmxs
    · subst hmx
      calc pendLookup (retryLoop oracle pend (m :: xs)) m.id
          = pendLookup (retryLoop oracle (processEntry pend m (oracle m)) xs) m.id := rfl
        _ = pendLookup (processEntry pend m (oracle m)) m.id := by
            apply retryLoop_lookup_not_mem
            intro q hq hqid
            exact hnd.1 (hqid ▸ List.mem_map_of_mem (fun p => p.id) hq)
        _ = _ := pendLookup_processEntry_self pend m (oracle m)
    · have hne : ¬ x.id = m.id := by
        intro heq
        exact hnd.1 (heq ▸ List.mem_map_of_mem (fun p => p.id) hmxs)
      calc pendLookup (retryLoop oracle pend (x :: xs)) m.id
          = pendLookup (retryLoop oracle (processEntry pend x (oracle x)) xs) m.id := rfl
        _ = _ := ih _ m hnd.2 hmxs

theorem retry_lookup_none (pend : List PendingMessage)
    (oracle : PendingMessage → Bool) (i : String)
    (h : pendLookup pend i = none) :
    pendLookup (retryPendingMessages pend oracle) i = none := by
  unfold retryPendingMessages
  have hall : ∀ m ∈ pend, ¬ m.id = i := by
    intro m hm heq
    have h2 := List.find?_eq_none.1 h m hm
    exact h2 (by simp [heq])
  rw [retryLoop_lookup_not_mem oracle pend i pend hall]
  exact h

theorem retry_lookup_some (pend : List PendingMessage)
    (oracle : PendingMessage → Bool) (i : String) (m : PendingMessage)
    (hnd : (pendIds pend).Nodup)
    (hm : pendLookup pend i = some m) :
    pendLookup (retryPendingMessages pend oracle) i =
      if m.retry_count < 5 then
        (if oracle m = true then none
         else some { m with retry_count := m.retry_count + 1 })
      else none := by
  have hm2 : List.find? (fun q => q.id == i) pend = some m := hm
  have hmem : m ∈ pend := List.mem_of_find?_eq_some hm2
  have hid : m.id = i := by
    have h3 := find?_some_pred (fun q => q.id == i) pend m hm2
    simpa using h3
  subst hid
  exact retryLoop_lookup_mem oracle pend pend m hnd hmem

theorem nodup_pendDelete (ps : List PendingMessage) (i : String)
    (h : (pendIds ps).Nodup) : (pendIds (pendDelete ps i)).Nodup := by
  unfold pendIds pendDelete at *
  exact List.Nodup.sublist ((List.filter_sublist _).map _) h

theorem nodup_pendSet (ps : List PendingMessage) (p : PendingMessage)
    (h : (pendIds ps).Nodup) : (pendIds (pendSet ps p)).Nodup := by
  unfold pendSet
  cases hf : ps.find? (fun x => x.id == p.id) with
  | some q =>
    rw [if_pos (by simp [hf])]
    have hsame : pendIds (ps.map (fun x => if x.id == p.id then p else x)) = pendIds ps := by
      unfold pendIds
      rw [List.map_map]
      apply List.map_congr_left
      intro x _
      by_cases hx : (x.id == p.id) = true
      · simp only [Function.comp_apply, if_pos hx]
        exact (by simpa using hx : x.id = p.id).symm
      · simp only [Function.comp_apply, if_neg hx]
    rw [hsame]
    exact h
  | none =>
    rw [if_neg (by simp [hf])]
    unfold pendIds at *
    rw [List.map_append]
    have hnotin : p.id ∉ ps.map (fun x => x.id) := by
      intro hmem
      obtain ⟨x, hx, hxe⟩ := List.mem_map.1 hmem
      have h2 := List.find?_eq_none.1 hf x hx
      exact h2 (by simp [hxe])
    refine List.Nodup.append h (List.nodup_singleton _) ?_
    intro a ha hb
    rw [List.mem_singleton.1 hb] at ha
    exact hnotin ha

theorem nodup_processEntry (pend : List PendingMessage) (m : PendingMessage)
    (ok : Bool) (h : (pendIds pend).Nodup) :
    (pendIds (processEntry pend m ok)).Nodup := by
  unfold processEntry
  by_cases hrc : m.retry_count < 5
  · rw [if_pos hrc]
    cases ok with
    | true =>
      simp only [if_true]
      exact nodup_pendDelete pend m.id h
    | false =>
      simp only [Bool.false_eq_true, if_false]
      exact nodup_pendSet pend _ h
  · rw [if_neg hrc]
    exact nodup_pendDelete pend m.id h

theorem nodup_retryLoop (oracle : PendingMessage → Bool) :
    ∀ (snap pend : List PendingMessage), (pendIds pend).Nodup →
      (pendIds (retryLoop oracle pend snap)).Nodup := by
  intro snap
  induction snap with
  | nil =>
    intro pend h
    exact h
  | cons x xs ih =>
    intro pend h
    exact ih _ (nodup_processEntry pend x (oracle x) h)

theorem nodup_retryTick (pend : List PendingMessage)
    (oracle : PendingMessage → Bool) (h : (pendIds pend).Nodup) :
    (pendIds (retryPendingMessages pend oracle)).Nodup :=
  nodup_retryLoop oracle pend pend h

theorem runAttempts_le_budget (i : String) :
    ∀ (fs : List (PendingMessage → Bool)) (pend : List PendingMessage),
      (pendIds pend).Nodup → runAttempts pend i fs ≤ pendBudget pend i := by
  intro fs
  induction fs with
  | nil =>
    intro pend _
    simp [runAttempts]
  | cons f fs ih =>
    intro pend hnd
    have hnd2 : (pendIds (retryPendingMessages pend f)).Nodup := nodup_retryTick pend f hnd
    have ihr := ih (retryPendingMessages pend f) hnd2
    have hgoal : runAttempts pend i (f :: fs) =
        tickAttempts pend i + runAttempts (retryPendingMessages pend f) i fs := rfl
    rw [hgoal]
    cases hl : pendLookup pend i with
    | none =>
      have hafter : pendLookup (retryPendingMessages pend f) i = none :=
        retry_lookup_none pend f i hl
      have hb : pendBudget (retryPendingMessages pend f) i = 0 := by
        unfold pendBudget
        rw [hafter]
      have hb0 : pendBudget pend i = 0 := by
        unfold pendBudget
        rw [hl]
      have ht : tickAttempts pend i = 0 := by
        unfold tickAttempts
        rw [hl]
      omega
    | some m =>
      have hstep := retry_lookup_some pend f i m hnd hl
      have hb0 : pendBudget pend i = 5 - m.retry_count := by
        unfold pendBudget
        rw [hl]
      by_cases hrc : m.retry_count < 5
      · have ht : tickAttempts pend i = 1 := by
          unfold tickAttempts
          rw [hl]
          exact if_pos hrc
        cases hfm : f m with
        | true =>
          have hafter : pendLookup (retryPendingMessages pend f) i = none := by
            rw [hstep, if_pos hrc, hfm]
            simp
          have hb : pendBudget (retryPendingMessages pend f) i = 0 := by
            unfold pendBudget
            rw [hafter]
          omega
        | false =>
          have hafter : pendLookup (retryPendingMessages pend f) i =
              some { m with retry_count := m.retry_count + 1 } := by
            rw [hstep, if_pos hrc, hfm]
            simp
          have hb : pendBudget (retryPendingMessages pend f) i = 5 - (m.retry_count + 1) := by
            unfold pendBudget
            rw [hafter]
          omega
      · have ht : tickAttempts pend i = 0 := by
          unfold tickAttempts
          rw [hl]
          exact if_neg hrc
        have hafter : pendLookup (retryPendingMessages pend f) i = none := by
          rw [hstep, if_neg hrc]
        have hb : pendBudget (retryPendingMessages pend f) i = 0 := by
          unfold pendBudget
          rw [hafter]
        omega

/-! ## C3 -/

/-- C3: on one retry tick an entry at or above the retry bound is removed with no
send attempt; an entry below the bound is attempted exactly once and is removed on
success or stored back with its retry count incremented on failure; and an entry
entering the queue with retry count 0 is attempted at most 5 times over any run of
ticks before it is gone. -/
theorem retryPendingMessages_bounded (pend : List PendingMessage) (i : String)
    (m : PendingMessage) (oracle : PendingMessage → Bool)
    (hnd : (pendIds pend).Nodup)
    (hm : pendLookup pend i = some m) :
    (5 ≤ m.retry_count →
      pendLookup (retryPendingMessages pend oracle) i = none ∧
      tickAttempts pend i = 0) ∧
    (m.retry_count < 5 →
      tickAttempts pend i = 1 ∧
      (oracle m = true → pendLookup (retryPendingMessages pend oracle) i = none) ∧
      (oracle m = false → pendLookup (retryPendingMessages pend oracle) i =
        some { m with retry_count := m.retry_count + 1 })) ∧
    (m.retry_count = 0 →
      ∀ fs : List (PendingMessage → Bool), runAttempts pend i fs ≤ 5) := by
  have hstep := retry_lookup_some pend oracle i m hnd hm
  refine ⟨?_, ?_, ?_⟩
  · intro h5
    have hrc : ¬ m.retry_count < 5 := by omega
    constructor
    · rw [hstep, if_neg hrc]
    · unfold tickAttempts
      rw [hm]
      exact if_neg hrc
  · intro hrc
    refine ⟨?_, ?_, ?_⟩
    · unfold tickAttempts
      rw [hm]
      exact if_pos hrc
    · intro hfm
      rw [hstep, if_pos hrc, hfm]
      simp
    · intro hfm
      rw [hstep, if_pos hrc, hfm]
      simp
  · intro hz fs
    have hle := runAttempts_le_budget i fs pend hnd
    have hb : pendBudget pend i = 5 := by
      unfold pendBudget
      rw [hm]
      show 5 - m.retry_count = 5
      rw [hz]
    omega

/-- Witness for C3 on a single fresh entry and an always-failing send. -/
theorem retryPendingMessages_bounded_witness :
    (5 ≤ pending0.retry_count →
      pendLookup (retryPendingMessages [pending0] (fun _ => false)) "msg-p" = none ∧
      tickAttempts [pending0] "msg-p" = 0) ∧
    (pending0.retry_count < 5 →
      tickAttempts [pending0] "msg-p" = 1 ∧
      (false = true →
        pendLookup (retryPendingMessages [pending0] (fun _ => false)) "msg-p" = none) ∧
      (false = false →
        pendLookup (retryPendingMessages [pending0] (fun _ => false)) "msg-p" =
          some { pending0 with retry_count := pending0.retry_count + 1 })) ∧
    (pending0.retry_count = 0 →
      ∀ fs : List (PendingMessage → Bool), runAttempts [pending0] "msg-p" fs ≤ 5) :=
  retryPendingMessages_bounded [pending0] "msg-p" pending0 (fun _ => false)
    (by simp [pendIds]) rfl

/-! ## C4 -/

/-- C4: at the exact input the claim covers — authenticated caller, one resolved
participant, and the Remote Store already holding a non-group chat whose active
participant set is exactly the pair — createChat does not return the existing
chat: the deduplication loop evaluates the unbound identifier `user`
(chat.ts:274; the variable in scope is `currentUser`), and the resulting
reference error propagates through the outer catch, leaving the local cache
unchanged.  The part_001 variant of `createChat` omits the deduplication search
altogether, so in neither version do two calls return the same chat id. -/
theorem createChat_direct_duplicate_raises :
    (createChat stEmpty envDirectDup [userB] false none).1 = .error .refErrorUser ∧
    (createChat stEmpty envDirectDup [userB] false none).2 = stEmpty :=
  ⟨rfl, rfl⟩

/-! ## C6 -/

/-- C6: getUserChats returns a list sorted by updated-at descending on every
path: the remote-backed path (the query requests descending order, chat.ts:724 —
the hypothesis is exactly that the Remote Store honors the request), the two
local fallback paths (explicitly sorted, chat.ts:729-732 and 772-775), and the
trivial empty answers. -/
theorem getUserChats_sorted (st : ChatState) (env : GetChatsEnv)
    (hremote : ∀ rows, env.remote = .success rows → List.Sorted rowGe rows) :
    List.Sorted chatGe (getUserChats st env).1 := by
  unfold getUserChats
  cases hcu : env.currentUser with
  | none => exact List.sorted_nil
  | some uid =>
    cases henv : env.remote with
    | errResult => exact List.sorted_insertionSort chatGe _
    | thrown => exact List.sorted_insertionSort chatGe _
    | noData => exact List.sorted_nil
    | success rows =>
      have hrows := hremote rows henv
      exact List.Pairwise.map (rowToChat env) (fun _ _ h => h) hrows

/-- Witness for C6 on a sorted two-row remote response. -/
theorem getUserChats_sorted_witness :
    List.Sorted chatGe (getUserChats stAB envChatsOk).1 :=
  getUserChats_sorted stAB envChatsOk (by
    intro rows h
    have h2 : RemoteChatsResult.success [rowFresh, rowOld] = .success rows := h
    cases h2
    simp [List.sorted_cons, rowGe, rowFresh, rowOld])

/-! ## C8 -/

/-- C8 counterexample: with no active session getUserChats succeeds with the
empty list (chat.ts:700-703) instead of failing with an auth error. -/
theorem getUserChats_noauth_returns_empty :
    getUserChats stAB envChatsNoAuth = ([], stAB) := rfl

/-- C8 amended: createChat, sendMessage, addGroupMember and removeGroupMember all
resolve the identity first and fail with the auth error when there is no active
session; getUserChats instead succeeds, returning the empty list. -/
theorem operations_auth_gate (st : ChatState) (es : SendEnv) (ec : CreateEnv)
    (em : MemberEnv) (eg : GetChatsEnv) (chatId content userId : String)
    (ids : List String) (g : Bool) (nm : Option String) (mt : MsgType)
    (fd fn : Option String) :
    (sendMessage st { es with currentUser := none } chatId content mt fd fn).result =
      .error .authError ∧
    (createChat st { ec with currentUser := none } ids g nm).1 = .error .authError ∧
    (addGroupMember st { em with currentUser := none } chatId userId).1 =
      .error .authError ∧
    (removeGroupMember st { em with currentUser := none } chatId userId).1 =
      .error .authError ∧
    getUserChats st { eg with currentUser := none } = ([], st) :=
  ⟨rfl, rfl, rfl, rfl, rfl⟩

/-! ## C7 -/

/-- C7 counterexample: the status stored for the pair (m1, alice) is `seen`, and
a later updateMessageStatus call with `delivered` overwrites it (the remote
upsert carries the argument unconditionally, chat.ts:644-651, and the local
update overwrites the entry, chat.ts:663-666): the per-pair status regresses. -/
theorem updateMessageStatus_regresses :
    lookupStatus stSeen.messages "m1" userA = some .seen ∧
    lookupStatus (updateMessageStatus stSeen envStatusA "m1" .delivered).messages
      "m1" userA = some .delivered :=
  ⟨rfl, rfl⟩

theorem find?_map_keyed {α : Type} (l : List α) (p : α → Bool) (g : α → α)
    (hg : ∀ a, p a = true → p (g a) = true) :
    (l.map (fun a => if p a then g a else a)).find? p =
      (l.find? p).map (fun a => if p a then g a else a) := by
  induction l with
  | nil => rfl
  | cons x xs ih =>
    cases hx : p x with
    | true =>
      rw [List.map_cons, if_pos hx, find?_cons_true p (g x) _ (hg x hx),
          find?_cons_true p x xs hx]
      simp [hx]
    | false =>
      rw [List.map_cons, if_neg (by simp [hx]), find?_cons_false p x _ hx,
          find?_cons_false p x xs hx]
      exact ih

theorem lookupStatus_updateMessagesMap (uid messageId : String) (s : MsgStatus)
    (env : StatusEnv) :
    ∀ ms : List (String × List Message),
      (∃ s0, lookupStatus ms messageId uid = some s0) →
      lookupStatus (updateMessagesMap uid messageId s env ms) messageId uid = some s := by
  intro ms
  induction ms with
  | nil =>
    rintro ⟨s0, h⟩
    exact Option.noConfusion h
  | cons hd tl ih =>
    rintro ⟨s0, h⟩
    obtain ⟨cid, msgs⟩ := hd
    unfold updateMessagesMap
    by_cases hfind : (msgs.find? (fun m => m.id == messageId)).isSome
    · rw [if_pos hfind]
      obtain ⟨m, hm⟩ := Option.isSome_iff_exists.1 hfind
      have hpm : (m.id == messageId) = true :=
        find?_some_pred (fun m => m.id == messageId) msgs m hm
      have h2 : (m.status.find? (fun r => r.user_id == uid)).map (fun r => r.status)
          = some s0 := by
        have h3 : lookupStatus ((cid, msgs) :: tl) messageId uid =
            (m.status.find? (fun r => r.user_id == uid)).map (fun r => r.status) := by
          unfold lookupStatus
          rw [hm]
        rw [← h3]
        exact h
      obtain ⟨r, hr⟩ : ∃ r, m.status.find? (fun r => r.user_id == uid) = some r := by
        cases hfr : m.status.find? (fun r => r.user_id == uid) with
        | none =>
          rw [hfr] at h2
          exact Option.noConfusion h2
        | some r => exact ⟨r, rfl⟩
      have hpr : (r.user_id == uid) = true :=
        find?_some_pred (fun r => r.user_id == uid) m.status r hr
      unfold lookupStatus
      rw [find?_map_keyed msgs (fun m => m.id == messageId) _
            (fun a ha => by simpa using ha), hm]
      show ((if (m.id == messageId) = true then
          { m with status := updStatusList m.status uid messageId s env } else m).status.find?
            (fun r => r.user_id == uid)).map (fun r => r.status) = some s
      rw [if_pos hpm]
      show ((updStatusList m.status uid messageId s env).find?
          (fun r => r.user_id == uid)).map (fun r => r.status) = some s
      unfold updStatusList
      rw [if_pos (by simp [hr])]
      rw [find?_map_keyed m.status (fun r => r.user_id == uid) _
            (fun a ha => by simpa using ha), hr]
      show some ((if (r.user_id == uid) = true then
          { r with status := s, updated_at := env.now } else r).status) = some s
      rw [if_pos hpr]
    · rw [if_neg hfind]
      unfold lookupStatus
      cases hf2 : msgs.find? (fun m => m.id == messageId) with
      | some m => exact absurd (by simp [hf2]) hfind
      | none =>
        apply ih
        unfold lookupStatus at h
        rw [hf2] at h
        exact ⟨s0, h⟩

/-- C7 amended: updateMessageStatus stores the argument status for the
(message, caller) pair unconditionally — an existing entry, whatever it holds
(including `seen`), is overwritten with the new status rather than the update
being rejected or ignored. -/
theorem updateMessageStatus_overwrites (st : ChatState) (env : StatusEnv)
    (messageId uid : String) (s : UpdStatus) (s0 : MsgStatus)
    (hu : env.currentUser = some uid) (hok : env.upsertOk = true)
    (hprev : lookupStatus st.messages messageId uid = some s0) :
    lookupStatus (updateMessageStatus st env messageId s).messages messageId uid =
      some (updToStatus s) := by
  unfold updateMessageStatus
  rw [hu]
  simp only [hok, Bool.not_true, Bool.false_eq_true, if_false]
  exact lookupStatus_updateMessagesMap uid messageId (updToStatus s) env
    st.messages ⟨s0, hprev⟩

/-- Witness for C7 amended, overwriting a `seen` entry with `delivered`. -/
theorem updateMessageStatus_overwrites_witness :
    lookupStatus (updateMessageStatus stSeen envStatusA "m1" .delivered).messages
      "m1" userA = some (updToStatus .delivered) :=
  updateMessageStatus_overwrites stSeen envStatusA "m1" userA .delivered .seen
    rfl rfl rfl

end Messagingapp
